import Mathlib

/-!
# Verification of the transaction-safety heuristics engine

Shallow embedding of the detection modules of the repository:

* `src/ui/ducks/domains/typosquatting.ts` — Damerau-Levenshtein distance
  (optimal-string-alignment style dynamic program), domain similarity,
  typosquatting and drop-catching checks (top-level definitions below);
* `src/ui/ducks/address-poisoning/detection.ts` — namespace `Detection`:
  Levenshtein distance, similarity ratio, address-similarity classifier,
  and an address-poisoning check whose `performDetection` only logs;
* the simplified address-poisoning module (second copy of the module in
  the repository) — namespace `Simplified`: prefix/suffix character
  matching, relation-set construction over the transaction history, and
  the warning-emitting `performDetection`.

JavaScript strings are embedded as Lean `String`s; `toLowerCase`,
`toUpperCase`, `trim` and `slice` are embedded below on the character
lists underlying strings.  JavaScript `Set` objects (used only through
`add`, `has` and insertion-order iteration) are embedded as
insertion-ordered duplicate-free lists.  Fields of type `string |
undefined` become `Option String`.  The similarity ratio, a JavaScript
float, is embedded as an exact rational; the `0 / 0 = NaN` case of the
ratio is embedded as `none`.
-/

set_option autoImplicit false
set_option maxRecDepth 8192

/-! ## JavaScript string primitives -/

/-- JS `String.prototype.toLowerCase` (the source only applies it to ASCII
hex addresses and domain names; `Char.toLower` is identity beyond basic
latin, as is irrelevant here). -/
def strLower (s : String) : String := ⟨s.data.map Char.toLower⟩

/-- JS `String.prototype.toUpperCase`. -/
def strUpper (s : String) : String := ⟨s.data.map Char.toUpper⟩

/-- JS `String.prototype.trim` (whitespace at both ends removed). -/
def strTrim (s : String) : String :=
  ⟨((s.data.dropWhile Char.isWhitespace).reverse.dropWhile Char.isWhitespace).reverse⟩

/-- JS `s.slice(start, stop)` for non-negative arguments: the characters at
indices `start ≤ i < stop` (indices clamped to the string, empty when
`stop ≤ start`).  Matches JS clamping because `Nat` subtraction truncates. -/
def jsSlice (s : String) (start stop : ℕ) : String :=
  ⟨(s.data.drop start).take (stop - start)⟩

/-- JS `s.slice(-n)` (`n ≥ 1`): the last `n` characters, the whole string
when `n` exceeds the length (JS clamps the start index at 0). -/
def jsSliceLast (s : String) (n : ℕ) : String :=
  ⟨s.data.drop (s.data.length - n)⟩

/-- JS `s.slice(p, -q)`: characters from index `p` up to `q` from the end,
empty when the window is empty (both JS clamps fall out of truncated `Nat`
subtraction). -/
def jsSliceMid (s : String) (p q : ℕ) : String :=
  ⟨(s.data.drop p).take (s.data.length - q - p)⟩

/-- JS truthiness of a `string | undefined` value: `undefined` and the
empty string are falsy. -/
def jsTruthy : Option String → Bool
  | none => false
  | some s => s ≠ ""

/-- Insertion into a JS `Set` of strings, embedded as an insertion-ordered
duplicate-free list: `add` appends when the element is absent. -/
def setAdd (l : List String) (a : String) : List String :=
  if l.contains a then l else l ++ [a]

/-- One hexadecimal digit of JS `parseInt(·, 16)` (case-insensitive). -/
def hexDigit? (c : Char) : Option ℕ :=
  if '0' ≤ c ∧ c ≤ '9' then some (c.toNat - '0'.toNat)
  else if 'a' ≤ c ∧ c ≤ 'f' then some (c.toNat - 'a'.toNat + 10)
  else if 'A' ≤ c ∧ c ≤ 'F' then some (c.toNat - 'A'.toNat + 10)
  else none

/-- Digit-consuming loop of JS `parseInt(·, 16)`: accumulates the maximal
leading run of hex digits. -/
def parseHexAux : List Char → ℕ → ℕ
  | [], acc => acc
  | c :: rest, acc =>
    match hexDigit? c with
    | some d => parseHexAux rest (acc * 16 + d)
    | none => acc

/-- JS `parseInt(s, 16)` restricted to the shapes occurring in transaction
values: an optional `0x`/`0X` prefix followed by hex digits; `none` embeds
the `NaN` result produced when no digit can be read.  (The source computes
this value for diagnostics only; no branch of either detection module
depends on it.) -/
def jsParseHex (s : String) : Option ℕ :=
  let body :=
    match s.data with
    | '0' :: 'x' :: rest => rest
    | '0' :: 'X' :: rest => rest
    | l => l
  match body with
  | [] => none
  | c :: _ => if (hexDigit? c).isSome then some (parseHexAux body 0) else none

/-! ## `src/ui/ducks/domains/typosquatting.ts` -/

/-- Inner loop (over `j`) of the `damerauLevenshteinDistance` dynamic
program: computes the cells `j, j+1, …` of row `i`, where `a = str1[i-1]`,
`aPrev = str1[i-2]`, `pp` is row `i-2`, `prev` is row `i-1`, `left` is the
cell `j-1` of the current row just computed, `bPrev = str2[j-2]`, and the
list argument holds the remaining characters `str2[j-1], str2[j], …`.
Each cell is `min(m[i-1][j]+1, m[i][j-1]+1, m[i-1][j-1]+cost)` followed by
the adjacent-transposition refinement `min(·, m[i-2][j-2]+1)` exactly under
the source's guard `i > 1 && j > 1 && str1[i-1] === str2[j-2] &&
str1[i-2] === str2[j-1]`. -/
def dlRowGo (i : ℕ) (a aPrev : Option Char) (pp prev : List ℕ) :
    List Char → ℕ → ℕ → Option Char → List ℕ
  | [], _, _, _ => []
  | b :: rest, j, left, bPrev =>
    let cost : ℕ := if a = some b then 0 else 1
    let base := min (prev.getD j 0 + 1) (min (left + 1) (prev.getD (j - 1) 0 + cost))
    let v : ℕ :=
      if 1 < i ∧ 1 < j ∧ a = bPrev ∧ aPrev = some b then
        min base (pp.getD (j - 2) 0 + 1)
      else base
    v :: dlRowGo i a aPrev pp prev rest (j + 1) v (some b)

/-- The value `dlRowGo` assigns to one cell (the `let v` of its cons case),
factored out for the correctness proofs. -/
def dlCellVal (i : ℕ) (a aPrev : Option Char) (pp prev : List ℕ) (b : Char)
    (j left : ℕ) (bPrev : Option Char) : ℕ :=
  let cost : ℕ := if a = some b then 0 else 1
  let base := min (prev.getD j 0 + 1) (min (left + 1) (prev.getD (j - 1) 0 + cost))
  if 1 < i ∧ 1 < j ∧ a = bPrev ∧ aPrev = some b then
    min base (pp.getD (j - 2) 0 + 1)
  else base

/-- Rows of the `damerauLevenshteinDistance` matrix, filled row by row as
in the source; returns `(row (i-1), row i)` (first component `[]` at
`i = 0`, never read in that case because the transposition guard requires
`i > 1`).  Row `0` is `0, 1, …, len2`; row `i ≥ 1` starts with the
first-column value `i`. -/
def dlRows (s t : List Char) : ℕ → List ℕ × List ℕ
  | 0 => ([], List.range (t.length + 1))
  | i + 1 =>
    let p := dlRows s t i
    (p.2, (i + 1) :: dlRowGo (i + 1) (s.get? i) (s.get? (i - 1)) p.1 p.2 t 1 (i + 1) none)

/-- `damerauLevenshteinDistance(str1, str2)` from
`src/ui/ducks/domains/typosquatting.ts`: the bottom-right cell
`matrix[len1][len2]` of the dynamic program. -/
def damerauLevenshteinDistance (str1 str2 : String) : ℕ :=
  ((dlRows str1.data str2.data str1.data.length).2).getD str2.data.length 0

/-- `areSimilarDomains(domain1, domain2)`: case-folded, trimmed domains are
unequal and at optimal-string-alignment distance exactly 1. -/
def areSimilarDomains (domain1 domain2 : String) : Bool :=
  let d1 := strTrim (strLower domain1)
  let d2 := strTrim (strLower domain2)
  if d1 = d2 then false
  else damerauLevenshteinDistance d1 d2 == 1

/-- `findSimilarDomains(targetDomain, knownDomains)`: the known domains
similar to the target, in input order (original casing preserved). -/
def findSimilarDomains (targetDomain : String) (knownDomains : List String) : List String :=
  let target := strTrim (strLower targetDomain)
  knownDomains.foldl
    (fun similar knownDomain =>
      let known := strTrim (strLower knownDomain)
      if target = known then similar
      else if areSimilarDomains target known then similar ++ [knownDomain]
      else similar)
    []

/-- Warning record returned by `checkForTyposquatting`. -/
structure TyposquattingWarning where
  warning : String
  suggestedDomain : String
  deriving DecidableEq, Repr

/-- `checkForTyposquatting(domain, resolvedDomains)`: the resolved-domains
record (a JS object used only through `Object.keys`) is embedded as an
association list; `none` embeds a `null`/`undefined` record argument. -/
def checkForTyposquatting (domain : String)
    (resolvedDomains : Option (List (String × String))) : Option TyposquattingWarning :=
  if domain = "" then none
  else
    match resolvedDomains with
    | none => none
    | some entries =>
      let knownDomains := entries.map (·.1)
      if knownDomains.isEmpty then none
      else
        match findSimilarDomains domain knownDomains with
        | [] => none
        | suggestedDomain :: _ =>
          some { warning := "This domain is similar to \"" ++ suggestedDomain ++
                   "\" you've interacted with before.",
                 suggestedDomain := suggestedDomain }

/-- Warning record returned by `checkForDomainDropCatching`. -/
structure DropCatchingWarning where
  warning : String
  previousAddress : String
  currentAddress : String
  deriving DecidableEq, Repr

/-- `checkForDomainDropCatching(domain, currentAddress, previousAddress)`:
requires all three truthy (`previousAddress` may be `null`, embedded as
`none`), then warns iff the lowercased addresses differ. -/
def checkForDomainDropCatching (domain currentAddress : String)
    (previousAddress : Option String) : Option DropCatchingWarning :=
  if domain = "" ∨ currentAddress = "" ∨ ¬ jsTruthy previousAddress then none
  else
    let normalizedCurrent := strLower currentAddress
    let normalizedPrevious := strLower (previousAddress.getD "")
    if normalizedCurrent ≠ normalizedPrevious then
      some { warning := "The resolved address for \"" ++ domain ++
               "\" has changed since your last transaction.",
             previousAddress := normalizedPrevious,
             currentAddress := normalizedCurrent }
    else none

/-! ## Edit-sequence semantics of Damerau-Levenshtein distance

The glossary defines the distance as the minimum number of
single-character insert / delete / substitute / adjacent-transpose
operations transforming one string into the other.  `EditStep` is one such
operation; `ReachIn n s t` means `t` is reachable from `s` in at most `n`
operations; `IsEditDistance a b n` says `n` is that minimum. -/

/-- One Damerau-Levenshtein edit operation on a character list. -/
inductive EditStep : List Char → List Char → Prop
  | insert (u v : List Char) (c : Char) : EditStep (u ++ v) (u ++ c :: v)
  | delete (u v : List Char) (c : Char) : EditStep (u ++ c :: v) (u ++ v)
  | subst (u v : List Char) (c d : Char) : EditStep (u ++ c :: v) (u ++ d :: v)
  | transpose (u v : List Char) (c d : Char) :
      EditStep (u ++ c :: d :: v) (u ++ d :: c :: v)

/-- `ReachIn n s t`: `s` can be transformed into `t` by at most `n` edit
operations. -/
inductive ReachIn : ℕ → List Char → List Char → Prop
  | refl (n : ℕ) (s : List Char) : ReachIn n s s
  | head {n : ℕ} {s t u : List Char} : EditStep s t → ReachIn n t u → ReachIn (n + 1) s u

/-- `n` is the Damerau-Levenshtein distance of `a` and `b`: `n` operations
suffice and no smaller count does. -/
def IsEditDistance (a b : String) (n : ℕ) : Prop :=
  ReachIn n a.data b.data ∧ ∀ m : ℕ, ReachIn m a.data b.data → n ≤ m

/-! ## Shared data model of the address-poisoning modules

Both copies of the module declare identical `Transaction`,
`InternalAccount`, `SimilarityResult` and `MetamaskState` shapes; they are
declared once here.  `txParams` is typed non-optional in the source but
tested for falsiness (`!tx.txParams`), hence `Option`; the `from`, `to`
and `value` fields are optional strings.  The `metamask` wrapper object of
`MetamaskState` is flattened away, and the `internalAccounts.accounts`
record (used only through `Object.values`) is embedded as the list of its
values. -/

/-- `txParams` block of a transaction. -/
structure TxParams where
  «from» : Option String
  «to» : Option String
  value : Option String
  deriving DecidableEq, Repr

/-- A wallet transaction record. -/
structure Transaction where
  id : String
  status : String
  txParams : Option TxParams
  deriving DecidableEq, Repr

/-- An account owned by the local wallet. -/
structure InternalAccount where
  address : String
  deriving DecidableEq, Repr

/-- Result of the `Detection` address-similarity classifier. -/
structure SimilarityResult where
  isSimilar : Bool
  method : Option String
  deriving DecidableEq, Repr

/-- The `internalAccounts` slice of the wallet state. -/
structure InternalAccountsState where
  accounts : Option (List InternalAccount)
  selectedAccount : Option String
  deriving DecidableEq, Repr

/-- The `metamask` slice of the wallet state consumed by both modules. -/
structure MetamaskState where
  useAddressPoisoningDetect : Option Bool
  transactions : Option (List Transaction)
  internalAccounts : Option InternalAccountsState
  deriving DecidableEq, Repr

/-! ## `src/ui/ducks/address-poisoning/detection.ts` (namespace `Detection`) -/

namespace Detection

/-- Inner loop (over `j`) of the `levenshteinDistance` dynamic program:
cells `j, j+1, …` of row `i`, with `a = str1[i-1]`, `prev` row `i-1`,
`left` the previous cell of the current row, and the list argument the
remaining characters `str2[j-1], …`.  Equal characters copy the diagonal
directly; otherwise the cell is
`min(m[i-1][j-1]+1, m[i][j-1]+1, m[i-1][j]+1)` in source order. -/
def levRowGo (a : Option Char) (prev : List ℕ) : List Char → ℕ → ℕ → List ℕ
  | [], _, _ => []
  | b :: rest, j, left =>
    let v : ℕ :=
      if a = some b then prev.getD (j - 1) 0
      else min (prev.getD (j - 1) 0 + 1) (min (left + 1) (prev.getD j 0 + 1))
    v :: levRowGo a prev rest (j + 1) v

/-- Row `i` of the `levenshteinDistance` matrix (row 0 is `0, 1, …, len2`;
row `i ≥ 1` starts with the first-column value `i`). -/
def levRows (s t : List Char) : ℕ → List ℕ
  | 0 => List.range (t.length + 1)
  | i + 1 => (i + 1) :: levRowGo (s.get? i) (levRows s t i) t 1 (i + 1)

/-- `levenshteinDistance(str1, str2)` from
`src/ui/ducks/address-poisoning/detection.ts`: cell `matrix[len1][len2]`. -/
def levenshteinDistance (str1 str2 : String) : ℕ :=
  (levRows str1.data str2.data str1.data.length).getD str2.data.length 0

/-- `calculateSimilarity(str1, str2)`: `1 - distance / maxLength`.  The
source has no guard on `maxLength`; when both strings are empty JS
computes `0 / 0 = NaN`, embedded as `none`.  All other values are exact
rationals standing in for the JS float. -/
def calculateSimilarity (str1 str2 : String) : Option ℚ :=
  let distance := levenshteinDistance str1 str2
  let maxLength := max str1.length str2.length
  if maxLength = 0 then none
  else some (1 - (distance : ℚ) / (maxLength : ℚ))

/-- JS `x >= c` where `x` may be `NaN` (`none`): comparisons against `NaN`
are false. -/
def qGeB (x : Option ℚ) (c : ℚ) : Bool :=
  match x with
  | none => false
  | some q => c ≤ q

/-- JS `Number.prototype.toFixed(1)` on the exact rational standing in for
the float: one digit after the point, rounding half away from zero (the
arguments occurring here are non-negative). -/
def toFixed1 (q : ℚ) : String :=
  let n : ℤ := ⌊q * 10 + 1 / 2⌋
  toString (n / 10) ++ "." ++ toString (n % 10)

/-- Percentage text interpolated into the similarity method strings:
`(q * 100).toFixed(1)`; `NaN` renders as `"NaN"` (unreachable from
`areAddressesSimilar`, whose inputs are non-empty). -/
def pctText (x : Option ℚ) : String :=
  match x with
  | none => "NaN"
  | some q => toFixed1 (q * 100)

/-- The fixed prefix/suffix window pairs of Method 1 (`prefixSuffixTests`),
in source order. -/
def prefixSuffixTests : List (ℕ × ℕ) := [(6, 4), (8, 6), (10, 4), (6, 6)]

/-- Body of `areAddressesSimilar` after the falsiness guard, operating on
the lowercased addresses `addr1`, `addr2` (every later comparison in the
source uses only these).  Methods in source order: identity guard; exact
windowed prefix+suffix match (first satisfied pair wins); global
similarity ≥ 0.85; prefix-window (first 12) similarity ≥ 0.8;
suffix-window (last 10) similarity ≥ 0.8. -/
def similarCore (addr1 addr2 : String) : SimilarityResult :=
  if addr1 = addr2 then ⟨false, none⟩
  else
    match prefixSuffixTests.find? (fun t =>
        jsSlice addr1 0 t.1 = jsSlice addr2 0 t.1 ∧
        jsSliceLast addr1 t.2 = jsSliceLast addr2 t.2 ∧
        jsSliceMid addr1 t.1 t.2 ≠ jsSliceMid addr2 t.1 t.2) with
    | some t =>
      ⟨true, some ("prefix(" ++ toString t.1 ++ ")+suffix(" ++ toString t.2 ++ ")")⟩
    | none =>
      let similarity := calculateSimilarity addr1 addr2
      if qGeB similarity (85 / 100) then
        ⟨true, some ("high-similarity(" ++ pctText similarity ++ "%)")⟩
      else
        let prefixSimilarity :=
          calculateSimilarity (jsSlice addr1 0 12) (jsSlice addr2 0 12)
        if qGeB prefixSimilarity (80 / 100) then
          ⟨true, some ("prefix-similarity(" ++ pctText prefixSimilarity ++ "%)")⟩
        else
          let suffixSimilarity :=
            calculateSimilarity (jsSliceLast addr1 10) (jsSliceLast addr2 10)
          if qGeB suffixSimilarity (80 / 100) then
            ⟨true, some ("suffix-similarity(" ++ pctText suffixSimilarity ++ "%)")⟩
          else ⟨false, none⟩

/-- `areAddressesSimilar(address1, address2)` of `detection.ts`: falsiness
guard on the raw inputs, then `similarCore` on the lowercased forms. -/
def areAddressesSimilar (address1 address2 : String) : SimilarityResult :=
  if address1 = "" ∨ address2 = "" then ⟨false, none⟩
  else similarCore (strLower address1) (strLower address2)

/-- Entry of the `addressesToCheck` collection of `performDetection`
(`valueETH`, a float display string used only in console logging, is not
carried). -/
structure AddressToCheck where
  address : String
  value : Option ℕ
  type : String
  deriving DecidableEq, Repr

/-- Warning shape declared by `detection.ts` (never constructed: its
`performDetection` returns `null` on every path). -/
structure AddressPoisoningWarning where
  warning : Bool
  title : String
  message : String
  recipientAddress : String
  suspiciousAddress : String
  detectionMethod : String
  txValue : String
  severity : String
  deriving DecidableEq, Repr

/-- `performDetection` of `detection.ts`: collects the transaction-history
addresses and the similar ones among them (for logging), then returns
`null` unconditionally — the warning-emission step is left as a `Future:`
comment in the source. -/
def performDetection (recipientAddress : String) (transactions : List Transaction)
    (internalAccounts : List InternalAccount) : Option AddressPoisoningWarning :=
  if recipientAddress = "" then none
  else
    let recipientLower := strLower recipientAddress
    let ownAddresses := internalAccounts.map fun account => strLower account.address
    if ownAddresses.contains recipientLower then none
    else
      let addressesToCheck : List AddressToCheck :=
        transactions.foldl
          (fun acc tx =>
            match tx.txParams with
            | none => acc
            | some p =>
              let fromLower := p.«from».map strLower
              let toLower := p.«to».map strLower
              let txValue := match p.value with
                | none => some 0
                | some v => if v = "" then some 0 else jsParseHex v
              let acc1 :=
                if ownAddresses.contains (fromLower.getD "") && jsTruthy toLower then
                  acc ++ [⟨toLower.getD "", txValue, "outgoing"⟩]
                else acc
              if ownAddresses.contains (toLower.getD "") && jsTruthy fromLower then
                acc1 ++ [⟨fromLower.getD "", txValue, "incoming"⟩]
              else acc1)
          []
      let similarAddresses :=
        addressesToCheck.filter fun txAddress =>
          (areAddressesSimilar recipientAddress txAddress.address).isSimilar
      none

/-- `getAddressPoisoningDetectionEnabled(state)`:
`state.metamask.useAddressPoisoningDetect ?? true`. -/
def getAddressPoisoningDetectionEnabled (state : MetamaskState) : Bool :=
  state.useAddressPoisoningDetect.getD true

/-- `checkForAddressPoisoningWithState(recipientAddress, state)`. -/
def checkForAddressPoisoningWithState (recipientAddress : String)
    (state : MetamaskState) : Option AddressPoisoningWarning :=
  if ¬ getAddressPoisoningDetectionEnabled state then none
  else if recipientAddress = "" then none
  else
    let transactions := state.transactions.getD []
    let internalAccounts :=
      match state.internalAccounts with
      | some ia =>
        match ia.accounts with
        | some accounts => accounts.map fun account => InternalAccount.mk account.address
        | none => []
      | none => []
    performDetection recipientAddress transactions internalAccounts

/-- `checkForAddressPoisoning(recipientAddress, detectionEnabled,
transactions, internalAccounts)`. -/
def checkForAddressPoisoning (recipientAddress : String) (detectionEnabled : Bool)
    (transactions : List Transaction) (internalAccounts : List InternalAccount) :
    Option AddressPoisoningWarning :=
  if ¬ detectionEnabled then none
  else performDetection recipientAddress transactions internalAccounts

end Detection

/-! ## The simplified address-poisoning module (namespace `Simplified`)

Embedding of the second, warning-emitting copy of the address-poisoning
module ("Simplified version with straightforward checks"). -/

namespace Simplified

/-- `countMatchingChars(str1, str2)`: number of indices (below the shorter
length) where the strings agree. -/
def countMatchingChars (str1 str2 : String) : ℕ :=
  (str1.data.zip str2.data).countP fun p => p.1 == p.2

/-- `getPrefixMatchingChars(address1, address2, prefixLength = 10)`:
matching characters of `slice(2, prefixLength)` of both addresses. -/
def getPrefixMatchingChars (address1 address2 : String) (prefixLength : ℕ := 10) : ℕ :=
  countMatchingChars (jsSlice address1 2 prefixLength) (jsSlice address2 2 prefixLength)

/-- `getSuffixMatchingChars(address1, address2, suffixLength = 10)`:
matching characters of `slice(-suffixLength)` of both addresses. -/
def getSuffixMatchingChars (address1 address2 : String) (suffixLength : ℕ := 10) : ℕ :=
  countMatchingChars (jsSliceLast address1 suffixLength) (jsSliceLast address2 suffixLength)

/-- Body of the simplified `areAddressesSimilar` after the falsiness
guard, on the lowercased addresses: exact 5-5 prefix/suffix match, else
combined 10-window prefix+suffix matching count ≥ 6. -/
def similarCore (addr1 addr2 : String) : Bool :=
  if addr1 = addr2 then false
  else
    let prefixMatchCount := getPrefixMatchingChars addr1 addr2 10
    let suffixMatchCount := getSuffixMatchingChars addr1 addr2 10
    let prefix5 := jsSlice addr1 0 5 = jsSlice addr2 0 5
    let suffix5 := jsSliceLast addr1 5 = jsSliceLast addr2 5
    if prefix5 ∧ suffix5 then true
    else if 6 ≤ prefixMatchCount + suffixMatchCount then true
    else false

/-- `areAddressesSimilar(address1, address2)` of the simplified module
(boolean result): falsiness guard, then `similarCore` on the lowercased
forms. -/
def areAddressesSimilar (address1 address2 : String) : Bool :=
  if address1 = "" ∨ address2 = "" then false
  else similarCore (strLower address1) (strLower address2)

/-- The transaction-history pass of the simplified `performDetection`
(lines building `addressesSentTo` / `addressesReceivedFrom`): a single
fold that skips any transaction missing `txParams` or not `"confirmed"`,
then records lowercased `to` for outgoing (owned `from`) and lowercased
`from` for incoming (owned `to`) transfers.  Returns
`(addressesSentTo, addressesReceivedFrom)`. -/
def relationSets (transactions : List Transaction) (ownAddresses : List String) :
    List String × List String :=
  transactions.foldl
    (fun sets tx =>
      match tx.txParams with
      | none => sets
      | some p =>
        if tx.status ≠ "confirmed" then sets
        else
          let fromLower := p.«from».map strLower
          let toLower := p.«to».map strLower
          let sentTo :=
            if jsTruthy fromLower && ownAddresses.contains (fromLower.getD "") &&
                jsTruthy toLower then
              setAdd sets.1 (toLower.getD "")
            else sets.1
          let receivedFrom :=
            if jsTruthy toLower && ownAddresses.contains (toLower.getD "") &&
                jsTruthy fromLower then
              setAdd sets.2 (fromLower.getD "")
            else sets.2
          (sentTo, receivedFrom))
    ([], [])

/-- Details block of the simplified warning. -/
structure WarningDetails where
  recipientAddress : String
  txValue : String
  deriving DecidableEq, Repr

/-- `AddressPoisoningWarning` of the simplified module. -/
structure AddressPoisoningWarning where
  warning : Bool
  title : String
  message : String
  details : WarningDetails
  severity : String
  deriving DecidableEq, Repr

/-- Warning message interpolated by the simplified `performDetection`
(both addresses truncated as `slice(0, 8) + "..." + slice(-6)`). -/
def warningMessage (recipientAddress similarAddressFound : String) : String :=
  "The address you're sending to (" ++ jsSlice recipientAddress 0 8 ++ "..." ++
    jsSliceLast recipientAddress 6 ++
    ") looks very similar to an address you've sent funds to before (" ++
    jsSlice similarAddressFound 0 8 ++ "..." ++ jsSliceLast similarAddressFound 6 ++
    "). This could be an address poisoning attack. Please verify the full address carefully."

/-- `performDetection` of the simplified module.  Steps in source order:
empty-recipient guard; own-address guard; relation-set construction;
sent-before guard; required inbound-history gate (recipient must appear in
`addressesReceivedFrom`); first similar address among `addressesSentTo`
(`break` on first hit, embedded as `find?`) produces the warning. -/
def performDetection (recipientAddress : String) (transactions : List Transaction)
    (internalAccounts : List InternalAccount) : Option AddressPoisoningWarning :=
  if recipientAddress = "" then none
  else
    let recipientLower := strLower recipientAddress
    let ownAddresses := internalAccounts.map fun account => strLower account.address
    if ownAddresses.contains recipientLower then none
    else
      let sets := relationSets transactions ownAddresses
      let addressesSentTo := sets.1
      let addressesReceivedFrom := sets.2
      if addressesSentTo.contains recipientLower then none
      else if ¬ addressesReceivedFrom.contains recipientLower then none
      else
        match addressesSentTo.find? fun sentToAddress =>
            areAddressesSimilar recipientLower sentToAddress with
        | some similarAddressFound =>
          some { warning := true,
                 title := "⚠️ Possible Address Poisoning",
                 message := warningMessage recipientAddress similarAddressFound,
                 details := { recipientAddress := recipientAddress, txValue := "Unknown" },
                 severity := "high" }
        | none => none

/-- `getAddressPoisoningDetectionEnabled(state)` of the simplified module. -/
def getAddressPoisoningDetectionEnabled (state : MetamaskState) : Bool :=
  state.useAddressPoisoningDetect.getD true

/-- `checkForAddressPoisoningWithState(recipientAddress, state)` of the
simplified module. -/
def checkForAddressPoisoningWithState (recipientAddress : String)
    (state : MetamaskState) : Option AddressPoisoningWarning :=
  if ¬ getAddressPoisoningDetectionEnabled state then none
  else if recipientAddress = "" then none
  else
    let transactions := state.transactions.getD []
    let internalAccounts :=
      match state.internalAccounts with
      | some ia =>
        match ia.accounts with
        | some accounts => accounts.map fun account => InternalAccount.mk account.address
        | none => []
      | none => []
    performDetection recipientAddress transactions internalAccounts

/-- `checkForAddressPoisoning(recipientAddress, detectionEnabled,
transactions, internalAccounts)` of the simplified module. -/
def checkForAddressPoisoning (recipientAddress : String) (detectionEnabled : Bool)
    (transactions : List Transaction) (internalAccounts : List InternalAccount) :
    Option AddressPoisoningWarning :=
  if ¬ detectionEnabled then none
  else performDetection recipientAddress transactions internalAccounts

end Simplified

/-! ## Helper lemmas on the string primitives -/

-- A string is empty iff its character list is.
theorem string_eq_empty_iff (s : String) : s = "" ↔ s.data = [] := by
  obtain ⟨l⟩ := s
  constructor
  · intro h
    exact congrArg String.data h
  · intro h
    subst h
    rfl

-- `Char.ofNat` at a valid scalar value round-trips through `toNat`.
theorem charToNat_ofNat_of_valid {n : ℕ} (h : n.isValidChar) : (Char.ofNat n).toNat = n := by
  simp only [Char.ofNat, dif_pos h, Char.ofNatAux, Char.toNat]
  rfl

-- ASCII case-folding is idempotent.
theorem charToLower_toLower (c : Char) : Char.toLower (Char.toLower c) = Char.toLower c := by
  by_cases h : c.toNat ≥ 65 ∧ c.toNat ≤ 90
  · have hv : (c.toNat + 32).isValidChar := Or.inl (by omega)
    have h1 : Char.toLower c = Char.ofNat (c.toNat + 32) := by
      simp only [Char.toLower]
      exact if_pos h
    rw [h1]
    simp only [Char.toLower]
    rw [charToNat_ofNat_of_valid hv,
      if_neg (show ¬(c.toNat + 32 ≥ 65 ∧ c.toNat + 32 ≤ 90) by omega)]
  · have h1 : Char.toLower c = c := by
      simp only [Char.toLower]
      exact if_neg h
    rw [h1, h1]

-- Lowercasing after uppercasing agrees with lowercasing directly.
theorem charToLower_toUpper (c : Char) : Char.toLower (Char.toUpper c) = Char.toLower c := by
  by_cases h : c.toNat ≥ 97 ∧ c.toNat ≤ 122
  · have hv : (c.toNat - 32).isValidChar := Or.inl (by omega)
    have h1 : Char.toUpper c = Char.ofNat (c.toNat - 32) := by
      simp only [Char.toUpper]
      exact if_pos h
    have h2 : Char.toLower c = c := by
      simp only [Char.toLower]
      exact if_neg (by omega)
    rw [h1, h2]
    simp only [Char.toLower]
    rw [charToNat_ofNat_of_valid hv,
      if_pos (show c.toNat - 32 ≥ 65 ∧ c.toNat - 32 ≤ 90 by omega)]
    have h3 : c.toNat - 32 + 32 = c.toNat := by omega
    rw [h3, Char.ofNat_toNat]
  · have h1 : Char.toUpper c = c := by
      simp only [Char.toUpper]
      exact if_neg h
    rw [h1]

theorem mapToLower_mapToLower (l : List Char) :
    (l.map Char.toLower).map Char.toLower = l.map Char.toLower := by
  induction l with
  | nil => rfl
  | cons c l ih => simp [charToLower_toLower, ih]

theorem mapToLower_mapToUpper (l : List Char) :
    (l.map Char.toUpper).map Char.toLower = l.map Char.toLower := by
  induction l with
  | nil => rfl
  | cons c l ih => simp [charToLower_toUpper, ih]

theorem strLower_strLower (s : String) : strLower (strLower s) = strLower s :=
  congrArg String.mk (mapToLower_mapToLower s.data)

theorem strLower_strUpper (s : String) : strLower (strUpper s) = strLower s :=
  congrArg String.mk (mapToLower_mapToUpper s.data)

theorem strLower_eq_empty_iff (s : String) : strLower s = "" ↔ s = "" := by
  rw [string_eq_empty_iff, string_eq_empty_iff]
  simp [strLower]

theorem strUpper_eq_empty_iff (s : String) : strUpper s = "" ↔ s = "" := by
  rw [string_eq_empty_iff, string_eq_empty_iff]
  simp [strUpper]

-- Strings with the same lowercasing are empty together.
theorem eq_empty_iff_of_strLower_eq {x y : String} (h : strLower x = strLower y) :
    x = "" ↔ y = "" := by
  rw [← strLower_eq_empty_iff x, ← strLower_eq_empty_iff y, h]

-- Folding over a filtered list equals folding over the whole list when the
-- fold body fixes every element the filter drops.
theorem foldl_filter_of_skip {α β : Type} (g : β → α → β) (q : α → Bool)
    (h : ∀ acc a, q a = false → g acc a = acc) :
    ∀ (l : List α) (init : β), (l.filter q).foldl g init = l.foldl g init := by
  intro l
  induction l with
  | nil => intro init; rfl
  | cons a l ih =>
    intro init
    by_cases hq : q a = true
    · simp only [List.filter_cons, hq, if_pos, List.foldl_cons, ih]
    · have hq' : q a = false := by simpa using hq
      simp only [List.filter_cons, hq', Bool.false_eq_true, if_neg, not_false_iff,
        List.foldl_cons, ih, h init a hq']

/-! ## Null-propagation helpers -/

-- `performDetection` of `detection.ts` returns `null` on every path.
theorem detection_performDetection_eq_none (r : String) (txs : List Transaction)
    (accs : List InternalAccount) : Detection.performDetection r txs accs = none := by
  simp only [Detection.performDetection]
  split
  · rfl
  · split <;> rfl

/-! ## Claim theorems -/

/-- C4: the address-poisoning module at
`src/ui/ducks/address-poisoning/detection.ts` never emits a warning: for every
recipient, enablement flag, transaction list, account list and state,
`performDetection` (which unconditionally returns `null` after collecting the
similar addresses), `checkForAddressPoisoning` and
`checkForAddressPoisoningWithState` all return `null`. -/
theorem detectionModuleNeverWarns (r : String) (enabled : Bool) (txs : List Transaction)
    (accs : List InternalAccount) (st : MetamaskState) :
    Detection.performDetection r txs accs = none ∧
    Detection.checkForAddressPoisoning r enabled txs accs = none ∧
    Detection.checkForAddressPoisoningWithState r st = none := by
  refine ⟨detection_performDetection_eq_none r txs accs, ?_, ?_⟩
  · simp only [Detection.checkForAddressPoisoning]
    split
    · rfl
    · exact detection_performDetection_eq_none _ _ _
  · simp only [Detection.checkForAddressPoisoningWithState]
    split
    · rfl
    · split
      · rfl
      · exact detection_performDetection_eq_none _ _ _

/-- C5: `checkForDomainDropCatching d a b` warns iff `d`, `a`, `b` are all
non-empty (`b` non-null) and the lowercased addresses differ; it returns
`null` on identical addresses and on a null previous address, and its
null-or-not outcome is invariant under case changes of either address. -/
theorem dropCatchingDecision (d a b : String) :
    ((checkForDomainDropCatching d a (some b)).isSome ↔
      d ≠ "" ∧ a ≠ "" ∧ b ≠ "" ∧ strLower a ≠ strLower b) ∧
    checkForDomainDropCatching d a (some a) = none ∧
    checkForDomainDropCatching d a none = none ∧
    (∀ a2 b2 : String, strLower a2 = strLower a → strLower b2 = strLower b →
      (checkForDomainDropCatching d a2 (some b2)).isSome =
        (checkForDomainDropCatching d a (some b)).isSome) := by
  have key : ∀ x y : String, (checkForDomainDropCatching d x (some y)).isSome =
      (decide (d ≠ "") && decide (x ≠ "") && decide (y ≠ "") &&
        decide (strLower x ≠ strLower y)) := by
    intro x y
    by_cases hd : d = "" <;> by_cases hx : x = "" <;> by_cases hy : y = "" <;>
      by_cases hl : strLower x = strLower y <;>
        simp [checkForDomainDropCatching, jsTruthy, hd, hx, hy, hl]
  refine ⟨?_, ?_, ?_, ?_⟩
  · rw [key a b]
    simp [and_assoc]
  · have h0 : (checkForDomainDropCatching d a (some a)).isSome = false := by
      rw [key a a]
      simp
    exact Option.not_isSome_iff_eq_none.mp (by simp [h0])
  · simp [checkForDomainDropCatching, jsTruthy]
  · intro a2 b2 h1 h2
    rw [key a2 b2, key a b, h1, h2]
    have e1 : decide (a2 ≠ "") = decide (a ≠ "") :=
      decide_eq_decide.mpr (not_congr (eq_empty_iff_of_strLower_eq h1))
    have e2 : decide (b2 ≠ "") = decide (b ≠ "") :=
      decide_eq_decide.mpr (not_congr (eq_empty_iff_of_strLower_eq h2))
    rw [e1, e2]

/-- Witness for C5: the case-invariance clause of `dropCatchingDecision`
applied at concrete inputs. -/
theorem dropCatchingDecision_witness :
    strLower "0xAB" = strLower "0xab" ∧ strLower "0xCd" = strLower "0xcd" ∧
    (checkForDomainDropCatching "uniswap.eth" "0xAB" (some "0xCd")).isSome =
      (checkForDomainDropCatching "uniswap.eth" "0xab" (some "0xcd")).isSome :=
  ⟨by decide, by decide,
    (dropCatchingDecision "uniswap.eth" "0xab" "0xcd").2.2.2 "0xAB" "0xCd"
      (by decide) (by decide)⟩

/-- C3 counterexample: the claim "with the enablement flag false, all three
checks return null" fails for the domain checks — with
`useAddressPoisoningDetect = false` in the state (so the enablement flag reads
false), `checkForTyposquatting` and `checkForDomainDropCatching`, which take no
enablement flag at all, still return non-null warnings on matching inputs. -/
theorem enablementGate_counterexample :
    Simplified.getAddressPoisoningDetectionEnabled ⟨some false, none, none⟩ = false ∧
    Detection.getAddressPoisoningDetectionEnabled ⟨some false, none, none⟩ = false ∧
    checkForTyposquatting "uniswap.eth" (some [("uniswaap.eth", "0xabc")]) ≠ none ∧
    checkForDomainDropCatching "uniswap.eth" "0xabc" (some "0xdef") ≠ none := by
  refine ⟨rfl, rfl, ?_, ?_⟩ <;> decide

/-- C3 amended: the enablement flag gates only the address-poisoning checks —
with the flag false, `checkForAddressPoisoning` and
`checkForAddressPoisoningWithState` of both modules return null without
evaluating any heuristic — while the typosquatting and drop-catching checks
take no enablement flag and can return non-null warnings regardless of it. -/
theorem enablementGate :
    (∀ (r : String) (txs : List Transaction) (accs : List InternalAccount),
      Simplified.checkForAddressPoisoning r false txs accs = none) ∧
    (∀ (r : String) (txs : List Transaction) (accs : List InternalAccount),
      Detection.checkForAddressPoisoning r false txs accs = none) ∧
    (∀ (r : String) (st : MetamaskState),
      Simplified.getAddressPoisoningDetectionEnabled st = false →
        Simplified.checkForAddressPoisoningWithState r st = none) ∧
    (∀ (r : String) (st : MetamaskState),
      Detection.getAddressPoisoningDetectionEnabled st = false →
        Detection.checkForAddressPoisoningWithState r st = none) ∧
    checkForTyposquatting "uniswap.eth" (some [("uniswaap.eth", "0xabc")]) ≠ none ∧
    checkForDomainDropCatching "uniswap.eth" "0xabc" (some "0xdef") ≠ none := by
  refine ⟨?_, ?_, ?_, ?_, ?_, ?_⟩
  · intro r txs accs
    simp [Simplified.checkForAddressPoisoning]
  · intro r txs accs
    simp [Detection.checkForAddressPoisoning]
  · intro r st h
    simp [Simplified.checkForAddressPoisoningWithState, h]
  · intro r st h
    simp [Detection.checkForAddressPoisoningWithState, h]
  · decide
  · decide

/-- Witness for C3 (amended): the flag-gated clauses of `enablementGate`
applied at a state whose enablement flag is false. -/
theorem enablementGate_witness :
    Simplified.getAddressPoisoningDetectionEnabled ⟨some false, some [], none⟩ = false ∧
    Simplified.checkForAddressPoisoningWithState "0xabc" ⟨some false, some [], none⟩ = none ∧
    Detection.checkForAddressPoisoningWithState "0xabc" ⟨some false, some [], none⟩ = none :=
  ⟨by decide,
    enablementGate.2.2.1 "0xabc" ⟨some false, some [], none⟩ (by decide),
    enablementGate.2.2.2.1 "0xabc" ⟨some false, some [], none⟩ (by decide)⟩

/-- C2: the inbound-history gate of the simplified module — whenever the
lowercased recipient is absent from the derived `addressesReceivedFrom` set
(no qualifying transaction has the recipient as sender and an owned address
as receiver), `checkForAddressPoisoning` returns null, regardless of any
similarity to addresses in `addressesSentTo`. -/
theorem inboundHistoryGate (enabled : Bool) (r : String) (txs : List Transaction)
    (accs : List InternalAccount)
    (h : ((Simplified.relationSets txs
        (accs.map fun account => strLower account.address)).2).contains (strLower r) = false) :
    Simplified.checkForAddressPoisoning r enabled txs accs = none := by
  simp only [Simplified.checkForAddressPoisoning, Simplified.performDetection]
  split
  · rfl
  · split
    · rfl
    · split
      · rfl
      · split
        · rfl
        · split
          · rfl
          · rename_i hcontains
            rw [not_not] at hcontains
            rw [hcontains] at h
            exact absurd h (by simp)

/-- Witness for C2: the gate applied to a history whose only transaction is an
outgoing transfer to an address similar to the recipient (so similarity alone
would match), but from which the recipient never sent anything. -/
theorem inboundHistoryGate_witness :
    ((Simplified.relationSets
        [{ id := "1", status := "confirmed",
           txParams := some { «from» := some "0xOWNER",
                              «to» := some "0xAAAA111122223333444455556666777788889999",
                              value := some "0x1" } }]
        ([({ address := "0xOWNER" } : InternalAccount)].map
          fun account => strLower account.address)).2).contains
      (strLower "0xAAAA111122223333444455556666777788880000") = false ∧
    Simplified.areAddressesSimilar "0xaaaa111122223333444455556666777788880000"
      "0xaaaa111122223333444455556666777788889999" = true ∧
    Simplified.checkForAddressPoisoning "0xAAAA111122223333444455556666777788880000" true
      [{ id := "1", status := "confirmed",
         txParams := some { «from» := some "0xOWNER",
                            «to» := some "0xAAAA111122223333444455556666777788889999",
                            value := some "0x1" } }]
      [{ address := "0xOWNER" }] = none :=
  ⟨by decide, by decide,
    inboundHistoryGate true "0xAAAA111122223333444455556666777788880000" _ _ (by decide)⟩

-- Non-qualifying transactions (missing `txParams` or not "confirmed") are
-- skipped by the relation-set fold, so filtering them away changes nothing.
theorem relationSets_filter_confirmed (txs : List Transaction) (own : List String) :
    Simplified.relationSets
        (txs.filter fun tx => tx.txParams.isSome && tx.status == "confirmed") own =
      Simplified.relationSets txs own := by
  unfold Simplified.relationSets
  refine foldl_filter_of_skip _ _ ?_ txs ([], [])
  intro acc tx h
  cases htx : tx.txParams with
  | none => simp [htx]
  | some p =>
    rw [htx] at h
    simp only [Option.isSome_some, Bool.true_and, beq_eq_false_iff_ne, ne_eq] at h
    simp [htx, h]

/-- C8: confirmed-only filtering — for every transaction list, owned-address
list and recipient, removing the transactions that lack a `txParams` block or
whose status is not "confirmed" changes neither the derived
sentTo/receivedFrom relation sets nor the result of the simplified
address-poisoning evaluation. -/
theorem confirmedOnlyFiltering (r : String) (txs : List Transaction)
    (accs : List InternalAccount) (own : List String) :
    Simplified.relationSets
        (txs.filter fun tx => tx.txParams.isSome && tx.status == "confirmed") own =
      Simplified.relationSets txs own ∧
    Simplified.performDetection r
        (txs.filter fun tx => tx.txParams.isSome && tx.status == "confirmed") accs =
      Simplified.performDetection r txs accs := by
  refine ⟨relationSets_filter_confirmed txs own, ?_⟩
  simp only [Simplified.performDetection, relationSets_filter_confirmed]

/-- C1: positive end-to-end scenario — with one owned address `0xOWNER`, a
confirmed transfer `0xOWNER → 0xAAAA…9999` and a confirmed transfer
`0xAAAA…0000 → 0xOWNER`, the simplified `checkForAddressPoisoning` (detection
enabled) on recipient `0xAAAA…0000` returns a non-null warning whose
`details.recipientAddress` is the recipient and whose message contains the
truncated rendering of the similar sent-to address `0xAAAA…9999`. -/
theorem positiveEndToEndScenario :
    ∃ w : Simplified.AddressPoisoningWarning,
      Simplified.checkForAddressPoisoning "0xAAAA111122223333444455556666777788880000" true
        [{ id := "1", status := "confirmed",
           txParams := some { «from» := some "0xOWNER",
                              «to» := some "0xAAAA111122223333444455556666777788889999",
                              value := some "0x1" } },
         { id := "2", status := "confirmed",
           txParams := some { «from» := some "0xAAAA111122223333444455556666777788880000",
                              «to» := some "0xOWNER",
                              value := some "0x1" } }]
        [{ address := "0xOWNER" }] = some w ∧
      w.details.recipientAddress = "0xAAAA111122223333444455556666777788880000" ∧
      ("0xaaaa11...889999" : String).data <:+: w.message.data := by
  refine ⟨_, rfl, rfl, ?_⟩
  decide

/-- C6 counterexample: `areSimilarDomains("uniswap.eth", "uniswap2.eth")` does
not return false — `"uniswap2.eth"` arises from `"uniswap.eth"` by a single
insertion, so the Damerau-Levenshtein distance is 1, not "2 or more". -/
theorem domainOneEdit_counterexample :
    ¬ (areSimilarDomains "uniswap.eth" "uniswap2.eth" = false) := by decide

/-- C6 amended: `areSimilarDomains("uniswap.eth", "uniswaap.eth")` returns
true, and `areSimilarDomains("uniswap.eth", "uniswap2.eth")` also returns true
(the distance is exactly 1 — one insertion); only variants at distance ≥ 2
such as `"uniswap22.eth"` return false. -/
theorem domainOneEdit :
    areSimilarDomains "uniswap.eth" "uniswaap.eth" = true ∧
    areSimilarDomains "uniswap.eth" "uniswap2.eth" = true ∧
    damerauLevenshteinDistance "uniswap.eth" "uniswap2.eth" = 1 ∧
    areSimilarDomains "uniswap.eth" "uniswap22.eth" = false := by
  refine ⟨?_, ?_, ?_, ?_⟩ <;> decide

/-- C10: case invariance of address-similarity classification — for every pair
of addresses, `areAddressesSimilar x y` (both the `detection.ts` classifier
with its method string and the simplified boolean one) equals
`areAddressesSimilar (uppercase x) (lowercase y)`: after the falsiness guard,
the comparison operates only on the lowercased forms. -/
theorem caseInvariance (x y : String) :
    Detection.areAddressesSimilar x y =
      Detection.areAddressesSimilar (strUpper x) (strLower y) ∧
    Simplified.areAddressesSimilar x y =
      Simplified.areAddressesSimilar (strUpper x) (strLower y) := by
  have hguard : (strUpper x = "" ∨ strLower y = "") ↔ (x = "" ∨ y = "") :=
    or_congr (strUpper_eq_empty_iff x) (strLower_eq_empty_iff y)
  constructor
  · unfold Detection.areAddressesSimilar
    rw [strLower_strUpper, strLower_strLower]
    exact (if_congr hguard rfl rfl).symm
  · unfold Simplified.areAddressesSimilar
    rw [strLower_strUpper, strLower_strLower]
    exact (if_congr hguard rfl rfl).symm

/-! ## Bounds for the Levenshtein dynamic program (claim C9) -/

-- Every cell of row 0 (`List.range`) is bounded by its column index.
theorem range_getD_le (n k : ℕ) : (List.range n).getD k 0 ≤ k := by
  by_cases hk : k < n
  · simp [List.getD_eq_getElem?_getD, List.getElem?_range hk]
  · have hlen : (List.range n).length ≤ k := by
      simpa [List.length_range] using not_lt.mp hk
    simp [List.getD_eq_getElem?_getD, List.getElem?_eq_none hlen]

-- Row length is preserved by the inner Levenshtein loop.
theorem levRowGo_length (a : Option Char) (prev : List ℕ) :
    ∀ (rest : List Char) (j left : ℕ),
      (Detection.levRowGo a prev rest j left).length = rest.length := by
  intro rest
  induction rest with
  | nil => intro j left; rfl
  | cons b rest ih =>
    intro j left
    simp only [Detection.levRowGo, List.length_cons, ih]

-- Cells produced by the inner loop of row `i0 + 1` are bounded by
-- `max (i0 + 1) column`.
theorem levRowGo_getD_le (i0 : ℕ) (a : Option Char) (prev : List ℕ)
    (hprev : ∀ k : ℕ, prev.getD k 0 ≤ max i0 k) :
    ∀ (rest : List Char) (j left : ℕ), 1 ≤ j → left ≤ max (i0 + 1) (j - 1) →
      ∀ k : ℕ, (Detection.levRowGo a prev rest j left).getD k 0 ≤ max (i0 + 1) (j + k) := by
  intro rest
  induction rest with
  | nil =>
    intro j left hj hleft k
    simp [Detection.levRowGo]
  | cons b rest ih =>
    intro j left hj hleft k
    have hcell : (if a = some b then prev.getD (j - 1) 0
        else min (prev.getD (j - 1) 0 + 1) (min (left + 1) (prev.getD j 0 + 1))) ≤
          max (i0 + 1) j := by
      have h1 := hprev (j - 1)
      have h2 := hprev j
      split
      · omega
      · omega
    simp only [Detection.levRowGo]
    cases k with
    | zero =>
      simpa using hcell
    | succ k =>
      simp only [List.getD_cons_succ]
      have := ih (j + 1) _ (by omega) (by simpa using hcell) k
      simpa [Nat.add_assoc, Nat.add_comm, Nat.add_left_comm] using this

-- Every cell of every Levenshtein row is bounded by `max row column`.
theorem levRows_getD_le (s t : List Char) :
    ∀ i k : ℕ, (Detection.levRows s t i).getD k 0 ≤ max i k := by
  intro i
  induction i with
  | zero =>
    intro k
    exact le_trans (range_getD_le (t.length + 1) k) (le_max_right 0 k)
  | succ i ih =>
    intro k
    cases k with
    | zero => simp [Detection.levRows]
    | succ k =>
      simp only [Detection.levRows, List.getD_cons_succ]
      have := levRowGo_getD_le i (s.get? i) (Detection.levRows s t i) ih t 1 (i + 1)
        (le_refl 1) (by simp) k
      simpa [Nat.add_comm] using this

-- The Levenshtein distance of `detection.ts` never exceeds the longer length.
theorem levenshteinDistance_le_max (str1 str2 : String) :
    Detection.levenshteinDistance str1 str2 ≤ max str1.length str2.length :=
  levRows_getD_le str1.data str2.data str1.data.length str2.data.length

/-- C9 counterexample: the similarity ratio is not total — the source has no
`max(len, 1)` guard, so `calculateSimilarity("", "")` divides zero by zero
and produces `NaN` (embedded as `none`), not a number in `[0, 1]`. -/
theorem similarityRatio_counterexample : Detection.calculateSimilarity "" "" = none := by
  decide

/-- C9 amended: for every pair of strings that are not both empty,
`calculateSimilarity` returns a well-defined rational in the closed interval
`[0, 1]`; only at two empty strings does the unguarded division produce
`NaN`. -/
theorem similarityRatioTotal (a b : String) (h : a ≠ "" ∨ b ≠ "") :
    ∃ q : ℚ, Detection.calculateSimilarity a b = some q ∧ 0 ≤ q ∧ q ≤ 1 := by
  have hm : 0 < max a.length b.length := by
    rcases h with h | h
    · exact lt_max_of_lt_left
        (List.length_pos.mpr fun hh => h ((string_eq_empty_iff a).mpr hh))
    · exact lt_max_of_lt_right
        (List.length_pos.mpr fun hh => h ((string_eq_empty_iff b).mpr hh))
  have hmq : (0 : ℚ) < ((max a.length b.length : ℕ) : ℚ) := by exact_mod_cast hm
  have hd : ((Detection.levenshteinDistance a b : ℕ) : ℚ) ≤ ((max a.length b.length : ℕ) : ℚ) :=
    Nat.cast_le.mpr (levenshteinDistance_le_max a b)
  have hdiv1 : ((Detection.levenshteinDistance a b : ℕ) : ℚ) / ((max a.length b.length : ℕ) : ℚ) ≤ 1 :=
    (div_le_one hmq).mpr hd
  have hdiv0 : (0 : ℚ) ≤ ((Detection.levenshteinDistance a b : ℕ) : ℚ) / ((max a.length b.length : ℕ) : ℚ) :=
    div_nonneg (by positivity) (by positivity)
  refine ⟨1 - ((Detection.levenshteinDistance a b : ℕ) : ℚ) / ((max a.length b.length : ℕ) : ℚ), ?_, ?_, ?_⟩
  · simp [Detection.calculateSimilarity, Nat.pos_iff_ne_zero.mp hm]
  · linarith
  · linarith

/-- Witness for C9 (amended): the ratio at `("0xab", "")` is a well-defined
rational in `[0, 1]`. -/
theorem similarityRatioTotal_witness :
    (("0xab" : String) ≠ "" ∨ ("" : String) ≠ "") ∧
    ∃ q : ℚ, Detection.calculateSimilarity "0xab" "" = some q ∧ 0 ≤ q ∧ q ≤ 1 :=
  ⟨Or.inl (by decide), similarityRatioTotal "0xab" "" (Or.inl (by decide))⟩

/-! ## Edit-sequence lemmas (claim C7) -/

-- An edit step can be performed under a common head character.
theorem editStep_cons (c : Char) {s t : List Char} (h : EditStep s t) :
    EditStep (c :: s) (c :: t) := by
  cases h with
  | insert u v d => simpa using EditStep.insert (c :: u) v d
  | delete u v d => simpa using EditStep.delete (c :: u) v d
  | subst u v d e => simpa using EditStep.subst (c :: u) v d e
  | transpose u v d e => simpa using EditStep.transpose (c :: u) v d e

-- An edit step can be performed to the left of a common suffix.
theorem editStep_append (w : List Char) {s t : List Char} (h : EditStep s t) :
    EditStep (s ++ w) (t ++ w) := by
  cases h with
  | insert u v d => simpa [List.append_assoc] using EditStep.insert u (v ++ w) d
  | delete u v d => simpa [List.append_assoc] using EditStep.delete u (v ++ w) d
  | subst u v d e => simpa [List.append_assoc] using EditStep.subst u (v ++ w) d e
  | transpose u v d e => simpa [List.append_assoc] using EditStep.transpose u (v ++ w) d e

-- Reachability is monotone in the step budget.
theorem ReachIn.mono : ∀ {m n : ℕ} {s t : List Char}, m ≤ n → ReachIn m s t → ReachIn n s t := by
  intro m n s t hmn h
  induction h generalizing n with
  | refl k s => exact ReachIn.refl n s
  | head hstep htail ih =>
    cases n with
    | zero => omega
    | succ n => exact ReachIn.head hstep (ih (by omega))

-- Budgets add along composition of edit sequences.
theorem ReachIn.trans : ∀ {m n : ℕ} {s t u : List Char},
    ReachIn m s t → ReachIn n t u → ReachIn (m + n) s u := by
  intro m n s t u h1
  induction h1 generalizing n u with
  | refl k s => intro h2; exact h2.mono (by omega)
  | head hstep htail ih =>
    intro h2
    have h3 := ReachIn.head hstep (ih h2)
    simpa [Nat.succ_add] using h3

-- A final edit step costs one more unit.
theorem ReachIn.snoc {n : ℕ} {s t u : List Char} (h1 : ReachIn n s t) (h2 : EditStep t u) :
    ReachIn (n + 1) s u :=
  h1.trans (ReachIn.head h2 (ReachIn.refl 0 u))

-- Edit sequences lift under a common head character.
theorem reachIn_cons (c : Char) : ∀ {n : ℕ} {s t : List Char},
    ReachIn n s t → ReachIn n (c :: s) (c :: t) := by
  intro n s t h
  induction h with
  | refl k s => exact ReachIn.refl k (c :: s)
  | head hstep htail ih => exact ReachIn.head (editStep_cons c hstep) ih

-- Edit sequences lift to the left of a common suffix.
theorem reachIn_append (w : List Char) : ∀ {n : ℕ} {s t : List Char},
    ReachIn n s t → ReachIn n (s ++ w) (t ++ w) := by
  intro n s t h
  induction h with
  | refl k s => exact ReachIn.refl k (s ++ w)
  | head hstep htail ih => exact ReachIn.head (editStep_append w hstep) ih

-- Any list is reachable from the empty list by inserting every character.
theorem reachIn_insert_all (l : List Char) : ReachIn l.length [] l := by
  induction l with
  | nil => exact ReachIn.refl 0 []
  | cons c l ih =>
    have hstep : EditStep [] [c] := by simpa using EditStep.insert [] [] c
    exact ReachIn.head hstep (reachIn_cons c ih)

-- The empty list is reachable by deleting every character.
theorem reachIn_delete_all (l : List Char) : ReachIn l.length l [] := by
  induction l with
  | nil => exact ReachIn.refl 0 []
  | cons c l ih =>
    have hstep : EditStep (c :: l) l := by simpa using EditStep.delete [] l c
    exact ReachIn.head hstep ih

-- `take (n+1)` appends the just-read character.
theorem take_succ_of_get? {l : List Char} {n : ℕ} {c : Char} (h : l.get? n = some c) :
    l.take (n + 1) = l.take n ++ [c] := by
  rw [List.take_succ]
  rw [List.get?_eq_getElem?] at h
  simp [h]

-- The head of a `drop` is the character at that index.
theorem get?_of_drop_cons {t rest : List Char} {b : Char} {n : ℕ} (h : t.drop n = b :: rest) :
    t.get? n = some b := by
  have h0 : (t.drop n).get? 0 = t.get? (n + 0) := List.get?_drop t n 0
  rw [h] at h0
  simpa using h0.symm

-- Dropping one more character after a `drop` that produced a cons.
theorem drop_succ_of_drop_cons {t rest : List Char} {b : Char} {n : ℕ}
    (h : t.drop n = b :: rest) : t.drop (n + 1) = rest := by
  have h1 : t.drop (n + 1) = (t.drop n).drop 1 := (List.drop_drop 1 n t).symm
  rw [h1, h]
  rfl

-- A nonempty `drop` bounds the index by the length.
theorem lt_length_of_drop_cons {t rest : List Char} {b : Char} {n : ℕ}
    (h : t.drop n = b :: rest) : n < t.length := by
  by_contra hn
  rw [List.drop_eq_nil_of_le (by omega)] at h
  exact List.noConfusion h

-- A budget that works is still a budget after taking a minimum with anything
-- that also works.
theorem reachIn_min {x y : ℕ} {s t : List Char} (hx : ReachIn x s t) (hy : ReachIn y s t) :
    ReachIn (min x y) s t := by
  rcases le_total x y with h | h
  · rwa [min_eq_left h]
  · rwa [min_eq_right h]

-- Every cell of the inner Damerau-Levenshtein loop is an achievable edit
-- budget: the cell at offset `k` (column `j + k`) of row `i0 + 1` transforms
-- the `(i0+1)`-prefix of `s` into the `(j+k)`-prefix of `t`.
theorem dlRowGo_reach (s t : List Char) (i0 : ℕ) (pp prev : List ℕ)
    (hi : i0 < s.length)
    (hprev : ∀ k : ℕ, k ≤ t.length → ReachIn (prev.getD k 0) (s.take i0) (t.take k))
    (hpp : 1 ≤ i0 → ∀ k : ℕ, k ≤ t.length → ReachIn (pp.getD k 0) (s.take (i0 - 1)) (t.take k)) :
    ∀ (rest : List Char) (j left : ℕ) (bPrev : Option Char),
      1 ≤ j → t.drop (j - 1) = rest →
      (1 < j → bPrev = t.get? (j - 2)) →
      ReachIn left (s.take (i0 + 1)) (t.take (j - 1)) →
      ∀ k : ℕ, k < rest.length →
        ReachIn
          ((dlRowGo (i0 + 1) (s.get? i0) (s.get? (i0 - 1)) pp prev rest j left bPrev).getD k 0)
          (s.take (i0 + 1)) (t.take (j + k)) := by
  intro rest
  induction rest with
  | nil =>
    intro j left bPrev hj hdrop hbPrev hleft k hk
    simp at hk
  | cons b rest ih =>
    intro j left bPrev hj hdrop hbPrev hleft k hk
    have hjlen : j - 1 < t.length := lt_length_of_drop_cons hdrop
    have hgetb : t.get? (j - 1) = some b := get?_of_drop_cons hdrop
    have hjle : j ≤ t.length := by omega
    obtain ⟨c, hc⟩ : ∃ c, s.get? i0 = some c := by
      rw [List.get?_eq_getElem?, List.getElem?_eq_getElem hi]
      exact ⟨_, rfl⟩
    have htake_s : s.take (i0 + 1) = s.take i0 ++ [c] := take_succ_of_get? hc
    have htake_t : t.take j = t.take (j - 1) ++ [b] := by
      have h0 := take_succ_of_get? hgetb
      rwa [Nat.sub_add_cancel hj] at h0
    have hup : ReachIn (prev.getD j 0 + 1) (s.take (i0 + 1)) (t.take j) := by
      have hstep : EditStep (s.take i0 ++ [c]) (s.take i0) := by
        simpa using EditStep.delete (s.take i0) [] c
      rw [htake_s]
      exact ReachIn.head hstep (hprev j hjle)
    have hleft1 : ReachIn (left + 1) (s.take (i0 + 1)) (t.take j) := by
      have hstep : EditStep (t.take (j - 1)) (t.take (j - 1) ++ [b]) := by
        simpa using EditStep.insert (t.take (j - 1)) [] b
      rw [htake_t]
      exact hleft.snoc hstep
    have hdiag : ReachIn (prev.getD (j - 1) 0 + (if s.get? i0 = some b then 0 else 1))
        (s.take (i0 + 1)) (t.take j) := by
      have hbase := reachIn_append [c] (hprev (j - 1) (by omega))
      rw [← htake_s] at hbase
      by_cases hcb : s.get? i0 = some b
      · have hcb' : c = b := by
          rw [hc] at hcb
          exact Option.some.inj hcb
        rw [if_pos hcb, Nat.add_zero, htake_t, ← hcb']
        exact hbase
      · rw [if_neg hcb, htake_t]
        exact hbase.snoc (EditStep.subst (t.take (j - 1)) [] c b)
    have hbase3 : ReachIn
        (min (prev.getD j 0 + 1)
          (min (left + 1) (prev.getD (j - 1) 0 + (if s.get? i0 = some b then 0 else 1))))
        (s.take (i0 + 1)) (t.take j) :=
      reachIn_min hup (reachIn_min hleft1 hdiag)
    have hcell : ReachIn
        (dlCellVal (i0 + 1) (s.get? i0) (s.get? (i0 - 1)) pp prev b j left bPrev)
        (s.take (i0 + 1)) (t.take j) := by
      unfold dlCellVal
      by_cases hg : 1 < i0 + 1 ∧ 1 < j ∧ s.get? i0 = bPrev ∧ s.get? (i0 - 1) = some b
      · rw [if_pos hg]
        obtain ⟨hgi, hgj, hga, hgap⟩ := hg
        have hi0 : 1 ≤ i0 := by omega
        have htrans : ReachIn (pp.getD (j - 2) 0 + 1) (s.take (i0 + 1)) (t.take j) := by
          have hbp : bPrev = t.get? (j - 2) := hbPrev hgj
          have htj2 : t.get? (j - 2) = some c := by
            rw [← hbp, ← hga, hc]
          have hs1 : s.take i0 = s.take (i0 - 1) ++ [b] := by
            have h0 := take_succ_of_get? hgap
            rwa [Nat.sub_add_cancel hi0] at h0
          have hs2 : s.take (i0 + 1) = s.take (i0 - 1) ++ [b, c] := by
            rw [htake_s, hs1, List.append_assoc]
            rfl
          have ht1 : t.take (j - 1) = t.take (j - 2) ++ [c] := by
            have h0 := take_succ_of_get? htj2
            have hj2 : j - 2 + 1 = j - 1 := by omega
            rwa [hj2] at h0
          have ht2 : t.take j = t.take (j - 2) ++ [c, b] := by
            rw [htake_t, ht1, List.append_assoc]
            rfl
          have hstep : EditStep (s.take (i0 - 1) ++ [b, c]) (s.take (i0 - 1) ++ [c, b]) :=
            EditStep.transpose (s.take (i0 - 1)) [] b c
          have hseq := reachIn_append [c, b] (hpp hi0 (j - 2) (by omega))
          rw [hs2, ht2]
          exact ReachIn.head hstep hseq
        exact reachIn_min hbase3 htrans
      · rw [if_neg hg]
        exact hbase3
    have hgo : dlRowGo (i0 + 1) (s.get? i0) (s.get? (i0 - 1)) pp prev (b :: rest) j left bPrev =
        dlCellVal (i0 + 1) (s.get? i0) (s.get? (i0 - 1)) pp prev b j left bPrev ::
          dlRowGo (i0 + 1) (s.get? i0) (s.get? (i0 - 1)) pp prev rest (j + 1)
            (dlCellVal (i0 + 1) (s.get? i0) (s.get? (i0 - 1)) pp prev b j left bPrev)
            (some b) := rfl
    rw [hgo]
    cases k with
    | zero =>
      simpa using hcell
    | succ k =>
      rw [List.getD_cons_succ]
      have hdrop' : t.drop (j + 1 - 1) = rest := by
        have h2 := drop_succ_of_drop_cons hdrop
        rw [Nat.sub_add_cancel hj] at h2
        simpa using h2
      have hrec := ih (j + 1)
        (dlCellVal (i0 + 1) (s.get? i0) (s.get? (i0 - 1)) pp prev b j left bPrev)
        (some b) (by omega) hdrop'
        (fun _ => by simpa using hgetb.symm)
        (by simpa using hcell)
        k (by simpa using Nat.lt_of_succ_lt_succ hk)
      have harith : j + (k + 1) = j + 1 + k := by omega
      rw [harith]
      exact hrec

-- Every cell of every row of the Damerau-Levenshtein matrix is an achievable
-- edit budget between the corresponding prefixes.
theorem dlRows_reach (s t : List Char) :
    ∀ i : ℕ, i ≤ s.length → ∀ k : ℕ, k ≤ t.length →
      ReachIn (((dlRows s t i).2).getD k 0) (s.take i) (t.take k) := by
  intro i
  induction i using Nat.strong_induction_on with
  | _ i ih =>
    match i with
    | 0 =>
      intro _ k hk
      have hklt : k < t.length + 1 := by omega
      have hval : ((dlRows s t 0).2).getD k 0 = k := by
        simp [dlRows, List.getD_eq_getElem?_getD, List.getElem?_range hklt]
      have hlen : (t.take k).length = k := by
        rw [List.length_take]
        omega
      rw [hval]
      have h0 := reachIn_insert_all (t.take k)
      simpa [hlen] using h0
    | i + 1 =>
      intro hi k hk
      have hrow : (dlRows s t (i + 1)).2 =
          (i + 1) :: dlRowGo (i + 1) (s.get? i) (s.get? (i - 1))
            (dlRows s t i).1 (dlRows s t i).2 t 1 (i + 1) none := rfl
      rw [hrow]
      have hdel : ReachIn (i + 1) (s.take (i + 1)) ([] : List Char) := by
        have h0 := reachIn_delete_all (s.take (i + 1))
        have hlen : (s.take (i + 1)).length = i + 1 := by
          rw [List.length_take]
          omega
        rwa [hlen] at h0
      cases k with
      | zero =>
        rw [List.getD_cons_zero]
        simpa using hdel
      | succ k =>
        rw [List.getD_cons_succ]
        have hprev : ∀ k' : ℕ, k' ≤ t.length →
            ReachIn (((dlRows s t i).2).getD k' 0) (s.take i) (t.take k') :=
          ih i (by omega) (by omega)
        have hpp : 1 ≤ i → ∀ k' : ℕ, k' ≤ t.length →
            ReachIn (((dlRows s t i).1).getD k' 0) (s.take (i - 1)) (t.take k') := by
          intro hi1 k' hk'
          obtain ⟨i', rfl⟩ : ∃ i', i = i' + 1 := ⟨i - 1, by omega⟩
          have h1 : (dlRows s t (i' + 1)).1 = (dlRows s t i').2 := rfl
          rw [h1]
          simpa using ih i' (by omega) (by omega) k' hk'
        have hleft : ReachIn (i + 1) (s.take (i + 1)) (t.take (1 - 1)) := by
          simpa using hdel
        have hmain := dlRowGo_reach s t i (dlRows s t i).1 (dlRows s t i).2 (by omega)
          hprev hpp t 1 (i + 1) none (le_refl 1) (by simp)
          (fun hcontra => absurd hcontra (by omega)) hleft k (by omega)
        simpa [Nat.add_comm] using hmain

-- The value returned by `damerauLevenshteinDistance` is always achievable.
theorem reachIn_damerau (str1 str2 : String) :
    ReachIn (damerauLevenshteinDistance str1 str2) str1.data str2.data := by
  have h := dlRows_reach str1.data str2.data str1.data.length (le_refl _)
    str2.data.length (le_refl _)
  rw [List.take_length, List.take_length] at h
  exact h

-- "ca" becomes "abc" with two operations: one transposition, one insertion.
theorem reachIn_ca_abc : ReachIn 2 ("ca" : String).data ("abc" : String).data := by
  have h1 : EditStep ['c', 'a'] ['a', 'c'] := by
    simpa using EditStep.transpose [] [] 'c' 'a'
  have h2 : EditStep ['a', 'c'] ['a', 'b', 'c'] := by
    simpa using EditStep.insert ['a'] ['c'] 'b'
  have hca : ("ca" : String).data = ['c', 'a'] := rfl
  have habc : ("abc" : String).data = ['a', 'b', 'c'] := rfl
  rw [hca, habc]
  exact ReachIn.head h1 (ReachIn.head h2 (ReachIn.refl 0 _))

-- The matrix value of the source at ("ca", "abc") is 3.
theorem damerau_ca_abc : damerauLevenshteinDistance "ca" "abc" = 3 := by decide

/-- C7 counterexample: `damerauLevenshteinDistance` does not equal the
glossary's Damerau-Levenshtein distance (minimum number of insert / delete /
substitute / adjacent-transpose operations) on every input: at
`("ca", "abc")` it returns 3, but two operations (transpose `ca → ac`, then
insert `b`) suffice, so 3 is not the minimum. -/
theorem damerauMinimality_counterexample :
    ¬ IsEditDistance "ca" "abc" (damerauLevenshteinDistance "ca" "abc") := by
  intro h
  have h3 := h.2 2 reachIn_ca_abc
  rw [damerau_ca_abc] at h3
  omega

/-- C7 amended: for every pair of strings, `damerauLevenshteinDistance a b`
single-character insert / delete / substitute / adjacent-transpose operations
suffice to transform `a` into `b` — the returned value is an upper bound on
the Damerau-Levenshtein distance — but it is not always the minimum: the
function computes the restricted (optimal-string-alignment) variant, and at
`("ca", "abc")` it returns 3 while 2 operations suffice. -/
theorem damerauUpperBound (a b : String) :
    ReachIn (damerauLevenshteinDistance a b) a.data b.data ∧
    ReachIn 2 ("ca" : String).data ("abc" : String).data ∧
    damerauLevenshteinDistance "ca" "abc" = 3 :=
  ⟨reachIn_damerau a b, reachIn_ca_abc, damerau_ca_abc⟩
